import Mathlib

/-!
Verification of the scheduling and statistics core of the MyGateway-ESP32-ETH
firmware (src/main.cpp), as a shallow embedding in Lean 4.

Modelling conventions:
* C `unsigned` counters are `Nat`: the stored counters are kept unbounded
  (they agree with the program's 32-bit fields on every execution of fewer
  than 2^32 events, and no settled statement reads them beyond that), while
  every 32-bit arithmetic expression whose wraparound is observable — the
  products and sums inside the success-percentage and messages-per-hour
  computations, and the millisecond clock arithmetic — carries an explicit
  `% 4294967296`.
* C strings are `List Char`; the decimal rendering done by `utoa` and by
  `snprintf`'s `%u` is `natDecimal`.
* The radio HAL is external to the repository: `transportHALGetSendingRSSI`
  follows the source's own comment (main.cpp:333), which documents it as
  `-29 - (8 * (RF24_getObserveTX() & 0xF))`; the observe register value is the
  external input `observeTX`.
* Fallible operations (the divisions inside the HTML table builder) run in
  `Except Unit`, erroring exactly when a divisor is zero, so that
  "no division by zero is ever evaluated" is the statement that the builder
  never returns an error.
-/

namespace Gw

/-- Decimal digit accumulator: the digit loop of `utoa(u, buf, 10)` and of
`snprintf`'s `%u`, with explicit fuel (the value itself suffices). -/
def natDigitsAux : Nat → Nat → List Char → List Char
  | 0, _, acc => acc
  | fuel + 1, n, acc =>
    let d := Nat.digitChar (n % 10)
    if n < 10 then d :: acc else natDigitsAux fuel (n / 10) (d :: acc)

/-- Decimal rendering of an unsigned value, as `utoa`/`%u` produce it. -/
def natDecimal (n : Nat) : List Char := natDigitsAux (n + 1) n []

/-- The rolling link aggregate `struct ArcStats_t` (main.cpp:282-286). -/
structure ArcStats where
  packets : Nat
  retries : Nat
  success : Nat
deriving DecidableEq

/-- The radio HAL's pseudo-RSSI, per the source comment at main.cpp:333:
`-29 - (8 * (RF24_getObserveTX() & 0xF))`, parametrized by the external
observe-register value. -/
def transportHALGetSendingRSSI (observeTX : Nat) : Int :=
  -29 - 8 * ((observeTX % 16 : Nat) : Int)

/-- The retry estimator `int arc = (-(rssi+29))/8;` (main.cpp:334). C `/` on
`int` truncates toward zero, which is `Int.tdiv`. Note: the source applies no
`max(0, _)` clamp. -/
def estimateRetries (rssi : Int) : Int :=
  Int.tdiv (-(rssi + 29)) 8

/-- `collectArcStatistics` (main.cpp:331-342): estimate the retries of the most
recent send from the HAL reading, fold them into the aggregate, and recompute
the success percentage. `arcStats.retries += arc` adds the `int` result to an
`unsigned` counter; for every HAL reading the estimate is non-negative
(lemma `estimateRetries_hal` below), so `Int.toNat` is exact here. The source
computes `(100uL * arcStats.packets) / (arcStats.packets + arcStats.retries)`
in 32-bit unsigned arithmetic: both the product and the divisor sum wrap
modulo `2^32`, hence the explicit `% 4294967296` on each. When the wrapped
divisor is zero the source's division is undefined behaviour; Lean's
`Nat` division makes it 0 here, and no settled statement relies on that
case. -/
def collectArcStatistics (observeTX : Nat) (a : ArcStats) : ArcStats × Nat :=
  let rssi := transportHALGetSendingRSSI observeTX
  let arc := (estimateRetries rssi).toNat
  let packets := a.packets + 1
  let retries := a.retries + arc
  let success := if packets ≠ 0 then
      (100 * packets) % 4294967296 / ((packets + retries) % 4294967296)
    else 100
  (⟨packets, retries, success⟩, arc)

/-- A sequence of link outcomes folded into the aggregate: repeated calls of
`collectArcStatistics`, each with its HAL observe value. -/
def foldOutcomes (obs : List Nat) (a : ArcStats) : ArcStats :=
  obs.foldl (fun st o => (collectArcStatistics o st).1) a

/-- The indication counters `struct RxTxStats_t` (main.cpp:271-273). -/
structure RxTxStats where
  nRx : Nat
  nTx : Nat
  nGwRx : Nat
  nGwTx : Nat
  nErr : Nat
deriving DecidableEq

/-- The process-wide statistics state: the per-neighbor arrays
`nMessagesRx/nMessagesTx/nRetries[256]` (main.cpp:276-280), the indication
counters, the link aggregate, and `t_last_clear` (main.cpp:308). -/
structure GwState where
  nMessagesRx : Fin 256 → Nat
  nMessagesTx : Fin 256 → Nat
  nRetries : Fin 256 → Nat
  rxtxStats : RxTxStats
  arcStats : ArcStats
  t_last_clear : Nat

/-- `initStats` (main.cpp:349-357): `memset` every counter block to zero and
record the current time. The `memset` zeroes `arcStats.success` as well. -/
def initStats (now : Nat) (_s : GwState) : GwState :=
  { nMessagesRx := fun _ => 0
    nMessagesTx := fun _ => 0
    nRetries := fun _ => 0
    rxtxStats := ⟨0, 0, 0, 0, 0⟩
    arcStats := ⟨0, 0, 0⟩
    t_last_clear := now }

/-- `aftertransportSend` (main.cpp:859-864): collect the ARC statistics for the
send that just finished, and charge the packet and its estimated retries to the
immediate recipient. -/
def aftertransportSend (nextRecipient : Fin 256) (observeTX : Nat)
    (s : GwState) : GwState :=
  let r := collectArcStatistics observeTX s.arcStats
  { s with
    arcStats := r.1
    nMessagesTx :=
      Function.update s.nMessagesTx nextRecipient (s.nMessagesTx nextRecipient + 1)
    nRetries :=
      Function.update s.nRetries nextRecipient (s.nRetries nextRecipient + r.2) }

/-- A burst of post-send events, each carrying the recipient id and the HAL
observe value for that send. -/
def runSendEvents (events : List (Fin 256 × Nat)) (s : GwState) : GwState :=
  events.foldl (fun st e => aftertransportSend e.1 e.2 st) s

/-- The full formatted link-status text `"\x7bP:%u,R:%u,S:%u\x7d"` of
`reportArcStatistics` (main.cpp:377), before any buffer truncation. -/
def arcPayload (a : ArcStats) : List Char :=
  ( "\x7bP:" ).data ++ natDecimal a.packets ++ ( ",R:" ).data ++
    natDecimal a.retries ++ ( ",S:" ).data ++ natDecimal a.success ++ ['\x7d']

/-- `reportArcStatistics` (main.cpp:372-385): `snprintf` into the fixed
`char payload[26]` keeps at most 25 characters of the formatted text. -/
def reportArcStatistics (a : ArcStats) : List Char :=
  (arcPayload a).take 25

/-- Everything of the formatted link-status text before its final closing
brace. -/
def arcFront (a : ArcStats) : List Char :=
  ( "\x7bP:" ).data ++ natDecimal a.packets ++ ( ",R:" ).data ++
    natDecimal a.retries ++ ( ",S:" ).data ++ natDecimal a.success

/-- The elapsed-time idiom `(unsigned long)(t_now - t_lastX)` used by every
interval check in `loop()` (main.cpp:1110, 1118, 1127, 1138): unsigned 32-bit
modular subtraction. -/
def elapsedU32 (now last : Nat) : Nat :=
  (4294967296 + now % 4294967296 - last % 4294967296) % 4294967296

/-- One periodic activity of the cooperative scheduler: its last fire time and
its interval (the `static unsigned long t_lastX` plus interval constant of each
block in `loop()`). -/
structure Activity where
  lastFired : Nat
  interval : Nat
deriving DecidableEq

/-- One interval check of `loop()`:
`if ((unsigned long)(t_now - t_lastX) > INTERVAL) { t_lastX = t_now; action(); }`.
Returns the updated activity and whether it fired. -/
def tickActivity (now : Nat) (a : Activity) : Activity × Bool :=
  if elapsedU32 now a.lastFired > a.interval then (⟨now, a.interval⟩, true)
  else (a, false)

/-- One scheduler pass: every registered activity is checked in registration
order. Returns the updated activities and the fire flags of this pass. -/
def schedPass (now : Nat) : List Activity → List Activity × List Bool
  | [] => ([], [])
  | a :: rest =>
    let t := tickActivity now a
    let r := schedPass now rest
    (t.1 :: r.1, t.2 :: r.2)

/-- Repeated scheduler passes over a sequence of clock readings. Returns the
final activities and, for each pass, its fire flags. -/
def schedRun : List Nat → List Activity → List Activity × List (List Bool)
  | [], acts => (acts, [])
  | now :: ticks, acts =>
    let p := schedPass now acts
    let r := schedRun ticks p.1
    (r.1, p.2 :: r.2)

/-- Arduino `String::indexOf(ch, fromIndex)`: the index of the first occurrence
of `c` at or after `fromIdx`, or `-1` when there is none (also when `fromIdx`
is past the end). -/
def indexOfFrom (l : List Char) (c : Char) (fromIdx : Nat) : Int :=
  match (l.drop fromIdx).findIdx? (fun d => d == c) with
  | some i => ((fromIdx + i : Nat) : Int)
  | none => -1

/-- Arduino `String::substring(from, to)` at the call sites of `process`, where
`0 ≤ from ≤ to` always holds: the characters of positions `[from, to)`,
clamped to the text. -/
def substr (l : List Char) (a b : Int) : List Char :=
  (l.take b.toNat).drop a.toNat

/-- The cursor-and-accumulator state of the scan loop of `process`
(main.cpp:644-662): `p1` is the position of the next `%` (or `-1`), `p2` one
past the last consumed delimiter, `res` the output built so far. -/
structure ProcState where
  p1 : Int
  p2 : Int
  res : List Char
deriving DecidableEq

/-- One iteration of the `while (p1 != -1)` body of `process` (main.cpp:651-659),
with the token resolver `processor` abstracted as `resolve`. -/
def processStep (resolve : List Char → List Char) (tpl : List Char)
    (s : ProcState) : ProcState :=
  let res1 := s.res ++ substr tpl s.p2 s.p1
  let q2 := indexOfFrom tpl '%' (s.p1 + 1).toNat
  let res2 := if q2 ≠ -1 then res1 ++ resolve (substr tpl (s.p1 + 1) q2) else res1
  let q1 := indexOfFrom tpl '%' (q2 + 1).toNat
  ⟨q1, q2 + 1, res2⟩

/-- The scan loop of `process`, run on explicit fuel: `some` with the final text
when the loop exits within `fuel` iterations, `none` when it does not. -/
def processLoop (resolve : List Char → List Char) (tpl : List Char) :
    Nat → ProcState → Option (List Char)
  | 0, _ => none
  | fuel + 1, s =>
    if s.p1 = -1 then some (s.res ++ tpl.drop s.p2.toNat)
    else processLoop resolve tpl fuel (processStep resolve tpl s)

/-- `process` (main.cpp:644-662): expand every `%TOKEN%` marker of `tpl` through
`resolve`, by left-to-right scan. The fuel bounds how many loop iterations we
are willing to observe. -/
def process (resolve : List Char → List Char) (tpl : List Char) (fuel : Nat) :
    Option (List Char) :=
  processLoop resolve tpl fuel ⟨indexOfFrom tpl '%' 0, 0, []⟩

/-- The template of the unterminated-marker test case: `"x%"`. -/
def tplUnterminated : List Char := ['x', '%']

/-- Division that records a zero divisor as an error instead of computing. -/
def divCheckedNat (a b : Nat) : Except Unit Nat :=
  if b = 0 then Except.error () else Except.ok (a / b)

/-- The messages-per-hour annotation of a table cell (main.cpp:542). -/
def spanMph (mph : Nat) : List Char :=
  ( "&ensp;<span class='mph'>" ).data ++ natDecimal mph ++ ( "/h</span>" ).data

/-- The per-neighbor success-percent annotation of a table cell (main.cpp:548). -/
def spanSuccess (success : Nat) : List Char :=
  ( "<br/><span class='suc'>" ).data ++ natDecimal success ++ ( "%</span>" ).data

/-- One `<td>` cell of the loop body of `make_table_row` (main.cpp:533-551), for
the neighbor whose counters are `rx`, `tx`, `rt`. Every division goes through
`divCheckedNat`, exactly where the source divides: the messages-per-hour figure
is computed only under `if (nSecsElapsed)` (and its value is irrelevant when
`rx = 0`, where the source leaves `MsgsPerHour` unused), the per-neighbor
success percent only under `if (totalMsgsTx > 0)`. The products
`totalMsgsRx * 3600uL` and `100 * totalMsgsTx` and the divisor sum
`totalMsgsTx + totalRetries` are 32-bit unsigned arithmetic and wrap modulo
`2^32`, hence the explicit `% 4294967296`; in particular the success divisor
can wrap to zero even when `tx > 0`. -/
def make_cell (nSecsElapsed rx tx rt : Nat) : Except Unit (List Char) := do
  let mph ← if nSecsElapsed ≠ 0 then
      divCheckedNat ((rx * 3600) % 4294967296) nSecsElapsed
    else Except.ok 0
  let rxPart := if rx > 0 then
      ( "<b>" ).data ++ natDecimal rx ++ ( "</b>" ).data ++
        (if nSecsElapsed ≠ 0 then spanMph mph else [])
    else []
  let txPart ← if tx > 0 then do
      let s ← divCheckedNat ((100 * tx) % 4294967296) ((tx + rt) % 4294967296)
      Except.ok (spanSuccess s)
    else Except.ok []
  Except.ok (( "<td>" ).data ++ rxPart ++ txPart ++ ( "</td>" ).data)

/-- `make_table_row` (main.cpp:528-554): the header cell for the decade `y`,
then the ten cells for neighbors `y`..`y+9`, read from the counter tables. -/
def make_table_row (y nSecsElapsed : Nat) (rxOf txOf rtOf : Nat → Nat) :
    Except Unit (List Char) := do
  let cells ← (List.range 10).mapM
    (fun x => make_cell nSecsElapsed (rxOf (y + x)) (txOf (y + x)) (rtOf (y + x)))
  Except.ok ((( "<tr><th>" ).data ++ natDecimal y ++ ( ":</td>" ).data) ++
    cells.flatten ++ ( "</tr>\n" ).data)

/-- The same cell computation with plain (total) division, guards kept: the
shape the claim describes, used to characterize `make_cell`. -/
def make_cell_unchecked (nSecsElapsed rx tx rt : Nat) : List Char :=
  ( "<td>" ).data ++
    (if rx > 0 then
        ( "<b>" ).data ++ natDecimal rx ++ ( "</b>" ).data ++
          (if nSecsElapsed ≠ 0 then
              spanMph ((rx * 3600) % 4294967296 / nSecsElapsed)
            else [])
      else []) ++
    (if tx > 0 then
        spanSuccess ((100 * tx) % 4294967296 / ((tx + rt) % 4294967296))
      else []) ++
    ( "</td>" ).data

/-- On the HAL's actual output domain the retry estimate is exactly the
masked observe register value, in particular non-negative. -/
lemma estimateRetries_hal (obs : Nat) :
    estimateRetries (transportHALGetSendingRSSI obs) = ((obs % 16 : Nat) : Int) := by
  unfold estimateRetries transportHALGetSendingRSSI
  have h : -(-29 - 8 * ((obs % 16 : Nat) : Int) + 29) = 8 * ((obs % 16 : Nat) : Int) := by
    ring
  rw [h]
  exact Int.mul_tdiv_cancel_left _ (by norm_num)

/-- C5: the elapsed-time computation `(unsigned long)(t_now - t_last)` in
32-bit modular arithmetic recovers the true forward distance `d` whenever
`last = start` and `now = (start + d) mod 2^32` with `d < 2^32`, in
particular across the `0xFFFFFFFF` rollover where `now < last` numerically. -/
theorem c5_elapsed_wraparound (start d : Nat)
    (h1 : start < 4294967296) (h2 : d < 4294967296) :
    elapsedU32 ((start + d) % 4294967296) start = d := by
  unfold elapsedU32
  omega

/-- Witness for C5 at a concrete rollover: `start = 0xFFFFFFFA`, `d = 10`,
so `now = 4` is numerically below `last`. -/
theorem c5_elapsed_wraparound_witness :
    4294967290 < 4294967296 ∧ 10 < 4294967296 ∧
      elapsedU32 ((4294967290 + 10) % 4294967296) 4294967290 = 10 :=
  ⟨by decide, by decide,
    c5_elapsed_wraparound 4294967290 10 (by decide) (by decide)⟩

/-- C6: on a scheduler pass at clock `now`, an activity fires exactly when
`(now - lastFired) mod 2^32 > interval`; `lastFired` becomes `now` exactly on
fire and is unchanged otherwise, the interval never changes, and activities are
checked in registration order (the order of `schedPass`). For the intervals
100 and 300 and the clock readings 0, 50, 101, 150, 301, 400 from
`lastFired = 0`, activity A fires at ticks 101 and 301 only and activity B at
tick 301 only. -/
theorem c6_scheduler_fires :
    (∀ (now : Nat) (a : Activity),
        (tickActivity now a).2 = decide (elapsedU32 now a.lastFired > a.interval) ∧
        (tickActivity now a).1.lastFired =
          (if elapsedU32 now a.lastFired > a.interval then now else a.lastFired) ∧
        (tickActivity now a).1.interval = a.interval) ∧
    (schedRun [0, 50, 101, 150, 301, 400] [⟨0, 100⟩, ⟨0, 300⟩]).2 =
      [[false, false], [false, false], [true, false], [false, false],
        [true, true], [false, false]] := by
  constructor
  · intro now a
    by_cases h : elapsedU32 now a.lastFired > a.interval <;>
      simp [tickActivity, h]
  · decide

/-- C2 counterexample: immediately after `initStats` the aggregate's success
field is 0, not 100 — the `memset` zeroes it and nothing recomputes it until
the next outcome is recorded. The preceding event is one send to neighbor 3
with observe value 5. -/
theorem c2_reset_counterexample :
    (initStats 7 (aftertransportSend 3 5 (initStats 0 (initStats 0
      ⟨fun _ => 0, fun _ => 0, fun _ => 0, ⟨0, 0, 0, 0, 0⟩, ⟨0, 0, 0⟩, 0⟩)))).arcStats.success
      ≠ 100 := by
  decide

/-- C2 amended: immediately after `initStats`, regardless of the preceding
state, every counter is zero — including `successPct`, which is 0 rather than
100 — and `sinceEpoch` equals the current time. -/
theorem c2_reset_state (now : Nat) (s : GwState) :
    (initStats now s).arcStats.packets = 0 ∧
    (initStats now s).arcStats.retries = 0 ∧
    (initStats now s).arcStats.success = 0 ∧
    (∀ i, (initStats now s).nMessagesRx i = 0) ∧
    (∀ i, (initStats now s).nMessagesTx i = 0) ∧
    (∀ i, (initStats now s).nRetries i = 0) ∧
    (initStats now s).rxtxStats = ⟨0, 0, 0, 0, 0⟩ ∧
    (initStats now s).t_last_clear = now :=
  ⟨rfl, rfl, rfl, fun _ => rfl, fun _ => rfl, fun _ => rfl, rfl, rfl⟩

/-- C3 counterexample: after 5 zero-retry outcomes followed by one outcome with
5 retries (observe value 5), the aggregate is `packets = 6, retries = 5,
success = 54`, not the claimed `packets = 5, retries = 5, success = 50`. -/
theorem c3_example_counterexample :
    ¬ ((foldOutcomes [0, 0, 0, 0, 0, 5] ⟨0, 0, 0⟩).packets = 5 ∧
       (foldOutcomes [0, 0, 0, 0, 0, 5] ⟨0, 0, 0⟩).retries = 5 ∧
       (foldOutcomes [0, 0, 0, 0, 0, 5] ⟨0, 0, 0⟩).success = 50) := by
  decide

/-- C3 amended: after every call of `collectArcStatistics` the stored success
percentage equals the unsigned-32-bit evaluation
`((100*packetsSent) mod 2^32) / ((packetsSent+retriesTotal) mod 2^32)` over the
stored counters, exactly as the source computes it; whenever neither
`100*packetsSent` nor `packetsSent+retriesTotal` reaches `2^32`, that is the
specified `floor(100*packetsSent/(packetsSent+retriesTotal))` (and
`packetsSent > 0` always holds right after a mutation); after 4 zero-retry
outcomes followed by one outcome with 5 retries the aggregate is
`(5, 5, 50)`; and at `packetsSent = 43000000, retriesTotal = 0` the 32-bit
product has wrapped and the program stores success 0, not the exact
`floor = 100`. -/
theorem c3_success_invariant :
    (∀ (obs : Nat) (a : ArcStats),
        ((collectArcStatistics obs a).1).success =
          (if ((collectArcStatistics obs a).1).packets ≠ 0 then
              (100 * ((collectArcStatistics obs a).1).packets) % 4294967296 /
                ((((collectArcStatistics obs a).1).packets +
                  ((collectArcStatistics obs a).1).retries) % 4294967296)
            else 100)) ∧
    (∀ (obs : Nat) (a : ArcStats),
        100 * ((collectArcStatistics obs a).1).packets < 4294967296 →
        ((collectArcStatistics obs a).1).packets +
            ((collectArcStatistics obs a).1).retries < 4294967296 →
        ((collectArcStatistics obs a).1).success =
          100 * ((collectArcStatistics obs a).1).packets /
            (((collectArcStatistics obs a).1).packets +
              ((collectArcStatistics obs a).1).retries)) ∧
    foldOutcomes [0, 0, 0, 0, 5] ⟨0, 0, 0⟩ = ⟨5, 5, 50⟩ ∧
    (collectArcStatistics 0 ⟨42999999, 0, 100⟩).1 = ⟨43000000, 0, 0⟩ := by
  refine ⟨fun _ _ => rfl, ?_, by decide, by decide⟩
  intro obs a h1 h2
  have hp : ((collectArcStatistics obs a).1).packets ≠ 0 := by
    show a.packets + 1 ≠ 0
    omega
  have e1 : ((collectArcStatistics obs a).1).success =
      (if ((collectArcStatistics obs a).1).packets ≠ 0 then
          (100 * ((collectArcStatistics obs a).1).packets) % 4294967296 /
            ((((collectArcStatistics obs a).1).packets +
              ((collectArcStatistics obs a).1).retries) % 4294967296)
        else 100) := rfl
  rw [e1, if_pos hp, Nat.mod_eq_of_lt h1, Nat.mod_eq_of_lt h2]

/-- Witness for C3 amended: the no-overflow invariant applied to the aggregate
`(4, 0, 100)` with one further 5-retry outcome, giving `(5, 5, 50)`. -/
theorem c3_success_invariant_witness :
    100 * ((collectArcStatistics 5 ⟨4, 0, 100⟩).1).packets < 4294967296 ∧
      ((collectArcStatistics 5 ⟨4, 0, 100⟩).1).packets +
          ((collectArcStatistics 5 ⟨4, 0, 100⟩).1).retries < 4294967296 ∧
      ((collectArcStatistics 5 ⟨4, 0, 100⟩).1).success =
        100 * ((collectArcStatistics 5 ⟨4, 0, 100⟩).1).packets /
          (((collectArcStatistics 5 ⟨4, 0, 100⟩).1).packets +
            ((collectArcStatistics 5 ⟨4, 0, 100⟩).1).retries) :=
  ⟨by decide, by decide,
    c3_success_invariant.2.1 5 ⟨4, 0, 100⟩ (by decide) (by decide)⟩

/-- C7 counterexample: the estimator has no `max(0, _)` clamp. At
`signalMetric = -21` the source computes `(-(-21+29))/8 = -1`, which differs
from the claimed `max(0, (-(signalMetric+29))/8) = 0` and is negative. -/
theorem c7_no_clamp_counterexample :
    estimateRetries (-21) = -1 ∧
      estimateRetries (-21) ≠ max 0 (Int.tdiv (-((-21 : Int) + 29)) 8) := by
  decide

/-- C7 amended: `estimateRetries` is the unclamped truncating division
`(-(signalMetric+29))/8`. It agrees with the claimed
`max(0, (-(signalMetric+29))/8)` for every `signalMetric ≤ -22` (hence on all
genuinely weak signals), and on the radio HAL's actual output domain
`rssi = -29 - 8*(observeTX & 0xF)` it equals the masked observe value
`observeTX & 0xF ∈ [0, 15]`, in particular it is non-negative there. -/
theorem c7_estimator_shape :
    (∀ sm : Int, sm ≤ -22 →
        estimateRetries sm = max 0 (Int.tdiv (-(sm + 29)) 8)) ∧
    (∀ observeTX : Nat,
        estimateRetries (transportHALGetSendingRSSI observeTX) =
          ((observeTX % 16 : Nat) : Int)) := by
  constructor
  · intro sm hsm
    have key : (0 : Int) ≤ Int.tdiv (-(sm + 29)) 8 := by
      rcases le_or_lt 0 (-(sm + 29)) with h | h
      · exact Int.tdiv_nonneg h (by norm_num)
      · have h1 : (0 : Int) ≤ sm + 29 := by omega
        have h2 : sm + 29 < 8 := by omega
        have h3 : Int.tdiv (-(sm + 29)) 8 = -Int.tdiv (sm + 29) 8 :=
          Int.neg_tdiv _ _
        rw [h3, Int.tdiv_eq_zero_of_lt h1 h2]
        norm_num
    unfold estimateRetries
    exact (max_eq_right key).symm
  · exact estimateRetries_hal

/-- Witness for C7 amended, at `signalMetric = -69` (where the estimate is 5)
and `observeTX = 5`. -/
theorem c7_estimator_shape_witness :
    ((-69 : Int) ≤ -22 ∧
      estimateRetries (-69) = max 0 (Int.tdiv (-((-69 : Int) + 29)) 8)) ∧
    estimateRetries (transportHALGetSendingRSSI 5) = ((5 % 16 : Nat) : Int) :=
  ⟨⟨by decide, c7_estimator_shape.1 (-69) (by decide)⟩,
    c7_estimator_shape.2 5⟩

/-- Once the scan of `"x%"` reaches the state `p1 = 1, p2 = 0` — which is also
its initial state — it reproduces that state on every iteration (after the
unmatched `%`, `p2` becomes `-1` and `tpl.indexOf('%', p2+1)` rescans from
index 0, finding the same `%` again), so no amount of fuel finishes the loop. -/
lemma processLoop_stuck (resolve : List Char → List Char) :
    ∀ (fuel : Nat) (res : List Char),
      processLoop resolve tplUnterminated fuel ⟨1, 0, res⟩ = none := by
  intro fuel
  induction fuel with
  | zero => intro res; rfl
  | succ n ih =>
    intro res
    have hstep : processStep resolve tplUnterminated ⟨1, 0, res⟩ =
        ⟨1, 0, res ++ ['x']⟩ := by
      have h2 : indexOfFrom tplUnterminated '%' 2 = -1 := by decide
      have h0 : indexOfFrom tplUnterminated '%' 0 = 1 := by decide
      have hsub : substr tplUnterminated 0 1 = ['x'] := by decide
      simp [processStep, h2, h0, hsub]
    have hunf : processLoop resolve tplUnterminated (n + 1) ⟨1, 0, res⟩ =
        processLoop resolve tplUnterminated n
          (processStep resolve tplUnterminated ⟨1, 0, res⟩) := by
      simp [processLoop]
    rw [hunf, hstep]
    exact ih _

/-- C1: on the template `"x%"`, whose final `%` has no matching closing `%`,
the scan loop of `process` never terminates, for every resolver and every
iteration bound — the cursor does not strictly advance on malformed input, and
no verbatim remainder is ever returned. This contradicts the specified
unterminated-marker passthrough `render("x%", f) = "x%"`; the `p1 =
tpl.indexOf(CHAR_BEGIN_VAR, p2+1)` rescan at main.cpp:657 restarts from index 0
whenever `p2 = -1`. -/
theorem c1_process_never_terminates (resolve : List Char → List Char)
    (fuel : Nat) : process resolve tplUnterminated fuel = none := by
  have h0 : indexOfFrom tplUnterminated '%' 0 = 1 := by decide
  unfold process
  rw [h0]
  exact processLoop_stuck resolve fuel []

/-- C4 counterexample: the 26-byte `payload` buffer truncates the formatted
text, so for the aggregate `(4294967295, 4294967295, 100)` the emitted string
is not the full grammar string. -/
theorem c4_truncation_counterexample :
    reportArcStatistics ⟨4294967295, 4294967295, 100⟩ ≠
      arcPayload ⟨4294967295, 4294967295, 100⟩ := by
  decide

/-- C4 amended: whenever the full formatted text fits the 26-byte buffer (at
most 25 characters), `reportArcStatistics` emits exactly
`"\x7bP:" ++ decimal(packets) ++ ",R:" ++ decimal(retries) ++ ",S:" ++
decimal(successPct) ++ "\x7d"`; in particular for `packets = 120`,
`retries = 14` it emits exactly `"\x7bP:120,R:14,S:89\x7d"` (the stored success
percent being `floor(100*120/134) = 89`). -/
theorem c4_report_format :
    (∀ a : ArcStats, (arcPayload a).length ≤ 25 →
        reportArcStatistics a = arcPayload a) ∧
    reportArcStatistics ⟨120, 14, 100 * 120 / (120 + 14)⟩ =
      ( "\x7bP:120,R:14,S:89\x7d" ).data := by
  constructor
  · intro a h
    unfold reportArcStatistics
    exact List.take_of_length_le h
  · decide

/-- Witness for C4 amended at the aggregate `(120, 14, 89)`. -/
theorem c4_report_format_witness :
    (arcPayload ⟨120, 14, 89⟩).length ≤ 25 ∧
      reportArcStatistics ⟨120, 14, 89⟩ = arcPayload ⟨120, 14, 89⟩ :=
  ⟨by decide, c4_report_format.1 ⟨120, 14, 89⟩ (by decide)⟩

/-- Updating one slot of a 256-entry counter table adds exactly the increment
to the table's total. -/
lemma sum_update_add (f : Fin 256 → Nat) (i : Fin 256) (a : Nat) :
    (∑ j : Fin 256, Function.update f i (f i + a) j) =
      (∑ j : Fin 256, f j) + a := by
  rw [Finset.sum_update_of_mem (Finset.mem_univ i),
    Finset.sdiff_singleton_eq_erase, ←
    Finset.add_sum_erase Finset.univ f (Finset.mem_univ i)]
  ring

/-- One post-send event preserves the agreement between the global aggregate
and the per-neighbor totals. -/
lemma aftertransportSend_inv (r : Fin 256) (obs : Nat) (s : GwState)
    (h1 : s.arcStats.packets = ∑ i : Fin 256, s.nMessagesTx i)
    (h2 : s.arcStats.retries = ∑ i : Fin 256, s.nRetries i) :
    (aftertransportSend r obs s).arcStats.packets =
        (∑ i : Fin 256, (aftertransportSend r obs s).nMessagesTx i) ∧
      (aftertransportSend r obs s).arcStats.retries =
        (∑ i : Fin 256, (aftertransportSend r obs s).nRetries i) := by
  unfold aftertransportSend collectArcStatistics
  constructor
  · simp only
    rw [sum_update_add]
    omega
  · simp only
    rw [sum_update_add]
    omega

/-- Every burst of post-send events preserves the aggregate/per-neighbor
agreement. -/
lemma runSendEvents_inv (events : List (Fin 256 × Nat)) :
    ∀ s : GwState,
      s.arcStats.packets = (∑ i : Fin 256, s.nMessagesTx i) →
      s.arcStats.retries = (∑ i : Fin 256, s.nRetries i) →
      (runSendEvents events s).arcStats.packets =
          (∑ i : Fin 256, (runSendEvents events s).nMessagesTx i) ∧
        (runSendEvents events s).arcStats.retries =
          (∑ i : Fin 256, (runSendEvents events s).nRetries i) := by
  induction events with
  | nil => intro s h1 h2; exact ⟨h1, h2⟩
  | cons e rest ih =>
    intro s h1 h2
    have h := aftertransportSend_inv e.1 e.2 s h1 h2
    exact ih (aftertransportSend e.1 e.2 s) h.1 h.2

/-- C10: starting from the state produced by `initStats`, after every sequence
of post-send events (any recipients, any HAL observe values) the global
aggregate stays consistent with the per-neighbor counters:
`arcStats.packets = Σ nMessagesTx[id]` and `arcStats.retries = Σ nRetries[id]`,
because each event adds one packet and the same estimated retry count to both
sides. -/
theorem c10_aggregate_consistency (events : List (Fin 256 × Nat)) (now : Nat)
    (s0 : GwState) :
    (runSendEvents events (initStats now s0)).arcStats.packets =
        (∑ i : Fin 256,
          (runSendEvents events (initStats now s0)).nMessagesTx i) ∧
      (runSendEvents events (initStats now s0)).arcStats.retries =
        (∑ i : Fin 256,
          (runSendEvents events (initStats now s0)).nRetries i) := by
  refine runSendEvents_inv events (initStats now s0) ?_ ?_ <;>
    simp [initStats]

/-- As long as the 32-bit sum `tx + rt` has not wrapped, every guarded cell
division has a nonzero divisor, so the checked cell computation equals the
plain one. -/
lemma make_cell_ok (nSecsElapsed rx tx rt : Nat) (h : tx + rt < 4294967296) :
    make_cell nSecsElapsed rx tx rt =
      Except.ok (make_cell_unchecked nSecsElapsed rx tx rt) := by
  unfold make_cell make_cell_unchecked divCheckedNat
  by_cases hs : nSecsElapsed = 0
  · by_cases ht : tx = 0
    · simp [hs, ht]
      rfl
    · have htp : 0 < tx := Nat.pos_of_ne_zero ht
      have hd : ¬(tx + rt) % 4294967296 = 0 := by
        rw [Nat.mod_eq_of_lt h]
        omega
      simp [hs, htp, hd]
      rfl
  · by_cases ht : tx = 0
    · simp [hs, ht]
      rfl
    · have htp : 0 < tx := Nat.pos_of_ne_zero ht
      have hd : ¬(tx + rt) % 4294967296 = 0 := by
        rw [Nat.mod_eq_of_lt h]
        omega
      simp [hs, htp, hd]
      rfl

/-- A `mapM` over elements on which the action provably succeeds is the `map`
of the success values. -/
lemma mapM_ok {α β : Type} (f : α → Except Unit β) (g : α → β) :
    ∀ l : List α, (∀ x ∈ l, f x = Except.ok (g x)) →
      l.mapM f = Except.ok (l.map g) := by
  intro l
  induction l with
  | nil => intro _; rfl
  | cons a t ih =>
    intro h
    rw [List.mapM_cons, h a (by simp), ih (fun x hx => h x (by simp [hx]))]
    rfl

/-- C8 counterexample: at `tx = 1, rt = 4294967295` the unsigned 32-bit sum
`totalMsgsTx + totalRetries` wraps to 0, so although `tx > 0` the per-neighbor
success division is evaluated with a zero divisor (undefined behaviour in the
source), refuting the claim that no division is ever evaluated with a zero
divisor. -/
theorem c8_wrapped_divisor_counterexample :
    make_cell 0 0 1 4294967295 = Except.error () := rfl

/-- C8 amended: in every cell of the neighbor table, the messages-per-hour
figure is computed and shown only under `secondsSinceReset ≠ 0` and the
per-neighbor success percent only under `tx > 0` (visible as the guards of
`make_cell_unchecked`); since the success divisor is the unsigned 32-bit sum
`(tx + retries) mod 2^32`, those guards keep every evaluated divisor nonzero
whenever `tx + retries < 2^32` — the checked builders then always return
`Except.ok`, for every row base, elapsed time and counter tables — while for
`tx > 0` with `tx + retries ≡ 0 (mod 2^32)` the wrapped divisor is zero and
the source divides by zero (see the counterexample). -/
theorem c8_row_division_guards :
    (∀ nSecsElapsed rx tx rt : Nat, tx + rt < 4294967296 →
        make_cell nSecsElapsed rx tx rt =
          Except.ok (make_cell_unchecked nSecsElapsed rx tx rt)) ∧
    (∀ (y nSecsElapsed : Nat) (rxOf txOf rtOf : Nat → Nat),
        (∀ i, txOf i + rtOf i < 4294967296) →
        make_table_row y nSecsElapsed rxOf txOf rtOf =
          Except.ok ((( "<tr><th>" ).data ++ natDecimal y ++
              ( ":</td>" ).data) ++
            ((List.range 10).map (fun x =>
              make_cell_unchecked nSecsElapsed (rxOf (y + x)) (txOf (y + x))
                (rtOf (y + x)))).flatten ++ ( "</tr>\n" ).data)) := by
  refine ⟨make_cell_ok, ?_⟩
  intro y nSecsElapsed rxOf txOf rtOf h
  unfold make_table_row
  rw [mapM_ok _
    (fun x => make_cell_unchecked nSecsElapsed (rxOf (y + x)) (txOf (y + x))
      (rtOf (y + x)))
    (List.range 10) (fun x _ => make_cell_ok _ _ _ _ (h (y + x)))]
  rfl

/-- Witness for C8 amended at the cell `secs = 0, rx = 7, tx = 3, rt = 1`
(success `100*3/(3+1) = 75`). -/
theorem c8_row_division_guards_witness :
    3 + 1 < 4294967296 ∧
      make_cell 0 7 3 1 = Except.ok (make_cell_unchecked 0 7 3 1) :=
  ⟨by decide, c8_row_division_guards.1 0 7 3 1 (by decide)⟩

/-- `Nat.digitChar` never yields a closing brace on decimal digits. -/
lemma digitChar_ne_rbrace (m : Nat) (h : m < 10) : Nat.digitChar m ≠ '\x7d' := by
  interval_cases m <;> decide

/-- The digit accumulator only prepends digit characters. -/
lemma natDigitsAux_ne_rbrace :
    ∀ (fuel n : Nat) (acc : List Char), (∀ c ∈ acc, c ≠ '\x7d') →
      ∀ c ∈ natDigitsAux fuel n acc, c ≠ '\x7d' := by
  intro fuel
  induction fuel with
  | zero => intro n acc hacc; exact hacc
  | succ k ih =>
    intro n acc hacc c hc
    rw [show natDigitsAux (k + 1) n acc =
        (if n < 10 then Nat.digitChar (n % 10) :: acc
          else natDigitsAux k (n / 10) (Nat.digitChar (n % 10) :: acc))
      from rfl] at hc
    have hcons : ∀ d ∈ Nat.digitChar (n % 10) :: acc, d ≠ '\x7d' := by
      intro d hd
      rcases List.mem_cons.1 hd with h1 | h2
      · subst h1
        exact digitChar_ne_rbrace _ (Nat.mod_lt _ (by norm_num))
      · exact hacc d h2
    by_cases h : n < 10
    · rw [if_pos h] at hc
      exact hcons c hc
    · rw [if_neg h] at hc
      exact ih (n / 10) (Nat.digitChar (n % 10) :: acc) hcons c hc

/-- No character of a decimal rendering is a closing brace. -/
lemma natDecimal_ne_rbrace (n : Nat) : ∀ c ∈ natDecimal n, c ≠ '\x7d' :=
  natDigitsAux_ne_rbrace (n + 1) n [] (by simp)

/-- The formatted link-status text is its front part plus one final closing
brace. -/
lemma arcPayload_eq_front (a : ArcStats) :
    arcPayload a = arcFront a ++ ['\x7d'] := by
  unfold arcPayload arcFront
  simp [List.append_assoc]

/-- No character of the front part is a closing brace. -/
lemma arcFront_ne_rbrace (a : ArcStats) : ∀ c ∈ arcFront a, c ≠ '\x7d' := by
  intro c hc
  unfold arcFront at hc
  simp only [List.mem_append] at hc
  rcases hc with ((((h1 | h2) | h3) | h4) | h5) | h6
  · exact (by decide : ∀ c ∈ ( "\x7bP:" ).data, c ≠ '\x7d') c h1
  · exact natDecimal_ne_rbrace _ c h2
  · exact (by decide : ∀ c ∈ ( ",R:" ).data, c ≠ '\x7d') c h3
  · exact natDecimal_ne_rbrace _ c h4
  · exact (by decide : ∀ c ∈ ( ",S:" ).data, c ≠ '\x7d') c h5
  · exact natDecimal_ne_rbrace _ c h6

/-- C9: the emitted link-status string is always at most 25 characters; when
the full formatted text exceeds 25 characters the emitted string is exactly
its truncated 25-character prefix, and its final character is then not the
closing brace, so the output no longer matches the report grammar. -/
theorem c9_buffer_truncation (a : ArcStats) :
    (reportArcStatistics a).length ≤ 25 ∧
      (25 < (arcPayload a).length →
        reportArcStatistics a = (arcPayload a).take 25 ∧
          (reportArcStatistics a).length = 25 ∧
          (reportArcStatistics a).getD 24 ' ' ≠ '\x7d') := by
  constructor
  · unfold reportArcStatistics
    rw [List.length_take]
    exact min_le_left _ _
  · intro h
    have hfl : (arcPayload a).length = (arcFront a).length + 1 := by
      rw [arcPayload_eq_front a]
      simp
    have hfront : 24 < (arcFront a).length := by omega
    refine ⟨rfl, ?_, ?_⟩
    · unfold reportArcStatistics
      rw [List.length_take]
      omega
    · unfold reportArcStatistics
      rw [List.getD_eq_getElem?_getD, List.getElem?_take,
        if_pos (by norm_num : (24 : Nat) < 25), arcPayload_eq_front a,
        List.getElem?_append, if_pos hfront,
        List.getElem?_eq_getElem hfront]
      simp only [Option.getD_some]
      exact arcFront_ne_rbrace a _ (List.getElem_mem hfront)

/-- Witness for C9 at the aggregate `(4294967295, 4294967295, 100)`, whose full
formatted text has 33 characters. -/
theorem c9_buffer_truncation_witness :
    25 < (arcPayload ⟨4294967295, 4294967295, 100⟩).length ∧
      (reportArcStatistics ⟨4294967295, 4294967295, 100⟩ =
          (arcPayload ⟨4294967295, 4294967295, 100⟩).take 25 ∧
        (reportArcStatistics ⟨4294967295, 4294967295, 100⟩).length = 25 ∧
        (reportArcStatistics ⟨4294967295, 4294967295, 100⟩).getD 24 ' ' ≠
          '\x7d') :=
  ⟨by decide,
    (c9_buffer_truncation ⟨4294967295, 4294967295, 100⟩).2 (by decide)⟩


end Gw
